import Mathlib

/-!
Shallow embedding of the CMSIS_NN-INTQ mixed-precision kernels.

The embedding covers the five source files of the repository:
  arm_nn_mat_mult_kernel_reordered_u8_int16_u4.c
  arm_nn_mat_mult_kernel_reordered_u4_int16_u2.c
  arm_nn_mat_mult_kernel_reordered_u8_int16_u4_thr.c
  arm_depthwise_separable_conv_HWC_u8_u2_u8_thr.c
  arm_u2_to_int16_reordered.c

Machine integers are modelled as unbounded Nat/Int with explicit wrapping
(mod 2^w) where the source wraps.  SIMD packed-lane intrinsics (UXTB16,
SSUB16, SMLAD, PKHBT/PKHTB, ROR) are modelled as the equivalent per-lane
integer operations, following the design note of the specification that the
packed-register form is a performance artifact and the semantic contract is
per-lane arithmetic.  Helper routines that live in headers outside the five
source files (USAT, HI_SMULL, int16-to-u2/u4 threshold folding,
read_and_pad_reordered) are modelled from the specification and are marked
as such in their doc comments.
-/

namespace CMSISNNIntq

/-- Update one cell of a byte-addressed memory modelled as a function. -/
def upd (f : Nat → Nat) (i v : Nat) : Nat → Nat := fun j => if j = i then v else f j

/-- Sum of the first n values of f, i.e. f 0 + f 1 + ... + f (n-1). -/
def sumUpTo (f : Nat → Int) : Nat → Int
  | 0 => 0
  | n + 1 => sumUpTo f n + f n

/-- Wrap an integer to the signed 32-bit two's-complement range, as an ARM
register does on overflow. -/
def toInt32 (x : Int) : Int := (x + 2 ^ 31) % 2 ^ 32 - 2 ^ 31

/-- Wrap an integer to the signed 16-bit two's-complement range (a C cast to
int16_t). -/
def toInt16 (x : Int) : Int := (x + 2 ^ 15) % 2 ^ 16 - 2 ^ 15

/-- Modelled from the spec: the ARM USAT intrinsic used by the kernels but
defined outside the five source files.  It saturates a signed value to the
unsigned range [0, 2^n - 1] by clamping, not wrapping. -/
def usatN (n : Nat) (x : Int) : Nat := min (2 ^ n - 1) x.toNat

/-- Modelled from the spec: the HI_SMULL helper used by the requantization
lines but defined outside the five source files.  It is the high-word
fixed-point multiply of the specification: the upper 32-bit word of the
64-bit signed product of its two 32-bit operands. -/
def hiSmull (a b : Int) : Int := (a * b) / 2 ^ 32

/-- A left shift of a 32-bit register, wrapping on overflow. -/
def shl32 (x : Int) (n : Nat) : Int := toInt32 (x * 2 ^ n)

/-- Source: the negative n_zero handling of both linear-requantization
matrix-multiply kernels (lines 78-87): n_zero is split into a left pre-shift
n_zero1 and a right post-shift n_zero2. -/
def nZeroSplit (n : Int) : Int × Int := if n > 0 then (0, n) else (-n, 0)

/-- Source: the PACT+FW requantization expression
(HI_SMULL(sum << n_zero1, m_zero) >> n_zero2) + z_out with the two shift
amounts already split. -/
def requantRaw (acc m : Int) (n1 n2 : Nat) (z : Int) : Int :=
  hiSmull (shl32 acc n1) m / 2 ^ n2 + z

/-- Source: the full requantization of one accumulator as both
matrix-multiply kernels compute it from the signed n_zero parameter. -/
def requant (acc m nZero z : Int) : Int :=
  requantRaw acc m (nZeroSplit nZero).1.toNat (nZeroSplit nZero).2.toNat z

/-- Source: the stored u4 output code, USAT(sum, 4) AND 0x0F
(arm_nn_mat_mult_kernel_reordered_u8_int16_u4.c line 187). -/
def requantStoreU4 (acc m nZero z : Int) : Nat :=
  usatN 4 (requant acc m nZero z) &&& 0x0F

/-- Source: the stored u2 output code, USAT(sum, 2) AND 0x03
(arm_nn_mat_mult_kernel_reordered_u4_int16_u2.c line 213). -/
def requantStoreU2 (acc m nZero z : Int) : Nat :=
  usatN 2 (requant acc m nZero z) &&& 0x03

lemma usatN_and_mask (b : Nat) (x : Int) :
    usatN b x &&& (2 ^ b - 1) = min (2 ^ b - 1) x.toNat := by
  have h : usatN b x &&& (2 ^ b - 1) = usatN b x % 2 ^ b :=
    Nat.and_pow_two_sub_one_eq_mod _ b
  have hle : usatN b x ≤ 2 ^ b - 1 := Nat.min_le_left _ _
  have hpos : 0 < 2 ^ b := Nat.pos_pow_of_pos b (by decide)
  rw [h, Nat.mod_eq_of_lt (by omega)]
  rfl

lemma nZeroSplit_eq_max (n : Int) : nZeroSplit n = (max 0 (-n), max 0 n) := by
  unfold nZeroSplit
  by_cases h : n > 0
  · simp only [if_pos h, Prod.mk.injEq]
    omega
  · simp only [if_neg h, Prod.mk.injEq]
    omega

/-- C3: the affine requantization computes
(HI_SMULL(acc << n_zero1, m_zero) >> n_zero2) + z_out with
n_zero1 = max(0, -n_zero) and n_zero2 = max(0, n_zero), both nonnegative so
no shift ever has a negative amount, and the stored output code is that
result clamped (not wrapped) to [0, 15] for the u4 kernel and [0, 3] for the
u2 kernel. -/
theorem claim_C3_affine_requant_shape (acc m n z : Int) :
    nZeroSplit n = (max 0 (-n), max 0 n) ∧
    0 ≤ (nZeroSplit n).1 ∧ 0 ≤ (nZeroSplit n).2 ∧
    requantStoreU4 acc m n z =
      (min 15 (max 0 (hiSmull (shl32 acc (max 0 (-n)).toNat) m / 2 ^ (max 0 n).toNat + z))).toNat ∧
    requantStoreU2 acc m n z =
      (min 3 (max 0 (hiSmull (shl32 acc (max 0 (-n)).toNat) m / 2 ^ (max 0 n).toNat + z))).toNat := by
  have hsplit := nZeroSplit_eq_max n
  refine ⟨hsplit, ?_, ?_, ?_, ?_⟩
  · rw [hsplit]; exact le_max_left _ _
  · rw [hsplit]; exact le_max_left _ _
  · unfold requantStoreU4 requant
    rw [hsplit]
    have h4 := usatN_and_mask 4 (requantRaw acc m (max 0 (-n)).toNat (max 0 n).toNat z)
    norm_num at h4 ⊢
    rw [h4]
    unfold requantRaw
    omega
  · unfold requantStoreU2 requant
    rw [hsplit]
    have h2 := usatN_and_mask 2 (requantRaw acc m (max 0 (-n)).toNat (max 0 n).toNat z)
    norm_num at h2 ⊢
    rw [h2]
    unfold requantRaw
    omega

/-- C9 counterexample, in two parts.  First, with the int32 parameter
m_zero = -2^31 (and n_zero = 0, z_out = 0) the requantized output code is
not monotone in the accumulator: accumulator -4 maps to code 2 while
accumulator 0 maps to code 0.  Second, even with the nonnegative multiplier
m_zero = 2^31 - 1, a negative n_zero = -1 makes the pre-shift wrap the
32-bit register: accumulator 2^30 - 1 shifts to 2^31 - 2 and maps to code
15, while accumulator 2^30 shifts (wrapping) to -2^31 and maps to code 0.
Monotonicity fails in both regimes the claim quantifies over. -/
theorem claim_C9_counterexample :
    ((-4 : Int) ≤ 0 ∧
     requantStoreU4 (-4) (-(2 ^ 31)) 0 0 = 2 ∧
     requantStoreU4 0 (-(2 ^ 31)) 0 0 = 0 ∧
     ¬ requantStoreU4 (-4) (-(2 ^ 31)) 0 0 ≤ requantStoreU4 0 (-(2 ^ 31)) 0 0) ∧
    ((2 ^ 30 - 1 : Int) ≤ 2 ^ 30 ∧
     requantStoreU4 (2 ^ 30 - 1) (2 ^ 31 - 1) (-1) 0 = 15 ∧
     requantStoreU4 (2 ^ 30) (2 ^ 31 - 1) (-1) 0 = 0 ∧
     ¬ requantStoreU4 (2 ^ 30 - 1) (2 ^ 31 - 1) (-1) 0 ≤
        requantStoreU4 (2 ^ 30) (2 ^ 31 - 1) (-1) 0) := by
  refine ⟨⟨by decide, by decide, by decide, by decide⟩,
    ⟨by decide, by decide, by decide, by decide⟩⟩

lemma toInt32_eq_self {x : Int} (h1 : -(2 ^ 31) ≤ x) (h2 : x < 2 ^ 31) :
    toInt32 x = x := by
  unfold toInt32
  omega

lemma requant_mono {m n z a b : Int} (hm : 0 ≤ m) (hn : 0 ≤ n)
    (ha : -(2 ^ 31) ≤ a) (hab : a ≤ b) (hb : b < 2 ^ 31) :
    requant a m n z ≤ requant b m n z := by
  have hsplit : nZeroSplit n = (0, n) := by
    unfold nZeroSplit
    by_cases h : n > 0
    · simp [h]
    · have : n = 0 := by omega
      simp [this]
  unfold requant requantRaw
  rw [hsplit]
  simp only [Int.toNat_zero, pow_zero, mul_one]
  unfold shl32
  rw [pow_zero, mul_one, mul_one, toInt32_eq_self ha (lt_of_le_of_lt hab hb),
    toInt32_eq_self (le_trans ha hab) hb]
  have h1 : a * m ≤ b * m := mul_le_mul_of_nonneg_right hab hm
  have h2 : hiSmull a m ≤ hiSmull b m := Int.ediv_le_ediv (by positivity) h1
  have h3 : hiSmull a m / 2 ^ n.toNat ≤ hiSmull b m / 2 ^ n.toNat :=
    Int.ediv_le_ediv (by positivity) h2
  omega

/-- C9 amended: for a nonnegative scale multiplier m_zero and a nonnegative
shift n_zero (the two restrictions the counterexample's two parts force: a
negative multiplier reverses the order through the high-word multiply, and
a negative n_zero makes the pre-shift wrap the 32-bit register), the
requantized output code is monotone in the int32 accumulator; and for all
parameters whatsoever the output code lies in [0, 15] for the u4 kernel and
[0, 3] for the u2 kernel (lower bound 0 is inherent in the Nat-valued
code). -/
theorem claim_C9_amended_requant_monotone (m n z a b acc : Int) :
    (0 ≤ m → 0 ≤ n → -(2 ^ 31) ≤ a → a ≤ b → b < 2 ^ 31 →
      requantStoreU4 a m n z ≤ requantStoreU4 b m n z ∧
      requantStoreU2 a m n z ≤ requantStoreU2 b m n z) ∧
    requantStoreU4 acc m n z ≤ 15 ∧
    requantStoreU2 acc m n z ≤ 3 := by
  constructor
  · intro hm hn ha hab hb
    have hmono := requant_mono (z := z) hm hn ha hab hb
    have e4a := usatN_and_mask 4 (requant a m n z)
    have e4b := usatN_and_mask 4 (requant b m n z)
    have e2a := usatN_and_mask 2 (requant a m n z)
    have e2b := usatN_and_mask 2 (requant b m n z)
    norm_num at e4a e4b e2a e2b
    unfold requantStoreU4 requantStoreU2
    rw [e4a, e4b, e2a, e2b]
    omega
  · have e4c := usatN_and_mask 4 (requant acc m n z)
    have e2c := usatN_and_mask 2 (requant acc m n z)
    norm_num at e4c e2c
    unfold requantStoreU4 requantStoreU2
    rw [e4c, e2c]
    omega

/-- Witness for the amended C9 theorem: the monotonicity part at concrete
nonnegative parameters, and the unconditional range part exercised at
negative parameters (m_zero = -2^31, n_zero = -1). -/
theorem claim_C9_amended_requant_monotone_witness :
    (requantStoreU4 0 1 0 0 ≤ requantStoreU4 1 1 0 0 ∧
     requantStoreU2 0 1 0 0 ≤ requantStoreU2 1 1 0 0) ∧
    (requantStoreU4 (-7) (-(2 ^ 31)) (-1) 5 ≤ 15 ∧
     requantStoreU2 (-7) (-(2 ^ 31)) (-1) 5 ≤ 3) :=
  ⟨(claim_C9_amended_requant_monotone 1 0 0 0 1 0).1 (by decide) (by decide)
     (by decide) (by decide) (by decide),
   (claim_C9_amended_requant_monotone (-(2 ^ 31)) (-1) 5 0 0 (-7)).2⟩

/-- Source: the z_a correction pre-loop shared by all three matrix-multiply
kernels (lines 93-111 of each file).  The for loop over i with step 2 runs
ceil(numCol_A / 2) iterations, each reading one SIMD pair from pB, and the
leftover branch (taken when numCol_A is odd) then reads the element the pair
loop left pB pointing at, which is element numCol_A + 1 of the flat buffer.
This is the value placed in z_a_offset, the correction for the first
activation vector. -/
def mat_z_a_offset (za : Int) (buf : Nat → Int) (numCol : Nat) : Int :=
  sumUpTo (fun k => za * buf (2 * k) + za * buf (2 * k + 1)) ((numCol + 1) / 2) +
    (if numCol % 2 = 1 then za * buf (numCol + 1) else 0)

/-- Source: the same pre-loop's z_a_offset2, the correction for the second
activation vector; pB2 starts at flat element numCol_A and advances in step
with pB, so its leftover read is at flat element 2 * numCol_A + 1. -/
def mat_z_a_offset2 (za : Int) (buf : Nat → Int) (numCol : Nat) : Int :=
  sumUpTo (fun k => za * buf (numCol + 2 * k) + za * buf (numCol + 2 * k + 1)) ((numCol + 1) / 2) +
    (if numCol % 2 = 1 then za * buf (2 * numCol + 1) else 0)

/-- Source: accumulator sum of arm_nn_mat_mult_kernel_reordered_u8_int16_u4
for the first output row against the first activation vector: bias[0] minus
z_a_offset, plus the unrolled passes over numCol_A >> 2 blocks of 4 columns.
The scalar leftover loop for the remaining numCol_A mod 4 columns is
compiled out by the preprocessor (the block between the if-0 markers at
lines 157-177), so no product term exists for those columns.  The
read_and_pad_reordered_u8 helper lives outside the five source files and is
modelled from the spec: the reordered weight layout streams the logical row
w in step with the activation buffer, with each byte zero-extended. -/
def matU8AccRow0 (w buf : Nat → Int) (bias0 za : Int) (numCol : Nat) : Int :=
  bias0 - mat_z_a_offset za buf numCol +
    sumUpTo (fun j => w j * buf j) (4 * (numCol >>> 2))

/-- Source: accumulator sum of arm_nn_mat_mult_kernel_reordered_u4_int16_u2
for the first output row against the first activation vector; the unrolled
pass consumes 8 u4 columns per iteration (colCnt = numCol_A >> 3) and the
scalar leftover loop is likewise compiled out (lines 174-194). -/
def matU4AccRow0 (w buf : Nat → Int) (bias0 za : Int) (numCol : Nat) : Int :=
  bias0 - mat_z_a_offset za buf numCol +
    sumUpTo (fun j => w j * buf j) (8 * (numCol >>> 3))

/-- Modelled from the spec: the naive scalar reference dot product
bias + sum over all numCol_A columns of (w_i - z_a) * x_i, against which the
accelerated path is required to agree exactly. -/
def matRefAcc (w buf : Nat → Int) (bias0 za : Int) (numCol : Nat) : Int :=
  bias0 + sumUpTo (fun j => (w j - za) * buf j) numCol

/-- C1 failing-input evaluation: with numCol_A = 2 (not a multiple of the
u8 kernel's width 4) and weights and activations all 1, bias 0, z_a 0, the
u8 kernel's accumulator is 0 while the naive scalar reference is 2; with
numCol_A = 4 (not a multiple of the u4 kernel's width 8) the u4 kernel's
accumulator is 0 while the reference is 4.  The remainder path the claim
describes is compiled out (if-0, FIXME) in both kernels, so the leftover
columns contribute no product term at all. -/
theorem claim_C1_remainder_divergence :
    matU8AccRow0 (fun _ => 1) (fun _ => 1) 0 0 2 = 0 ∧
    matRefAcc (fun _ => 1) (fun _ => 1) 0 0 2 = 2 ∧
    matU4AccRow0 (fun _ => 1) (fun _ => 1) 0 0 4 = 0 ∧
    matRefAcc (fun _ => 1) (fun _ => 1) 0 0 4 = 4 := by
  refine ⟨by decide, by decide, by decide, by decide⟩

def bufDemoC7 : Nat → Int := fun k =>
  if k = 0 then 5 else if k = 1 then 7 else if k = 2 then 11 else
  if k = 3 then 13 else 0

/-- C7 failing-input evaluation: with numCol_A = 1 and z_a = 1 over the flat
reordered buffer [5, 7, 11, 13, 0, ...] (vector one is element 0, vector two
is element 1), the pair loop runs ceil(1/2) = 1 iteration and reads elements
0 and 1, and the leftover branch then adds element 2, giving correction
23 for vector one where z_a times its column sum is 5; likewise the second
correction is 31 where z_a times vector two's column sum is 7.  Elements
are not counted exactly once for odd numCol_A. -/
theorem claim_C7_correction_divergence :
    mat_z_a_offset 1 bufDemoC7 1 = 23 ∧
    1 * sumUpTo bufDemoC7 1 = 5 ∧
    mat_z_a_offset2 1 bufDemoC7 1 = 31 ∧
    1 * sumUpTo (fun k => bufDemoC7 (1 + k)) 1 = 7 := by
  refine ⟨by decide, by decide, by decide, by decide⟩

/-- Modelled from the spec: the counting core of the threshold-folding
requantization helpers, which live in a header outside the five source
files.  The output code is the count of breakpoints the accumulator exceeds
or equals, i.e. the bucket index of a monotone step function. -/
def countGe (x : Int) (thr : Nat → Int) : Nat → Nat
  | 0 => 0
  | n + 1 => countGe x thr n + (if thr n ≤ x then 1 else 0)

/-- Modelled from the spec: the int16-to-u2 threshold requantization, which
compares the accumulator against the 2^2 - 1 = 3 breakpoints of one output
channel. -/
def int16_to_u2 (x : Int) (thr : Nat → Int) : Nat := countGe x thr 3

/-- Modelled from the spec: the int16-to-u4 threshold requantization, which
compares the accumulator against the 2^4 - 1 = 15 breakpoints of one output
channel. -/
def int16_to_u4 (x : Int) (thr : Nat → Int) : Nat := countGe x thr 15

/-- Source: the accumulator of one output channel c of the 4-channel
unrolled pass of arm_depthwise_separable_conv_HWC_u8_u2_u8_thr (lines
148-230).  The SIMD pair loop plus its odd-kernel-position leftover cover
all dim_kernel^2 staged positions; each step zero-extends the weight and
input bytes to 16-bit lanes, subtracts the zero points as signed values
(SSUB16) and multiply-accumulates (SMLAD), modelled per lane. -/
def dwAccMain (wt colB : Nat → Nat) (ch c zwt zin : Nat) (b : Int) (nk2 : Nat) : Int :=
  b + sumUpTo (fun k =>
    ((wt (k * ch + c) % 256 : Nat) - (zwt % 256 : Nat) : Int) *
    ((colB (k * ch + c) % 256 : Nat) - (zin % 256 : Nat) : Int)) nk2

/-- Source: the accumulator of one output channel c of the 1-channel
remainder loop of the same function (lines 246-268).  There the bytes are
kept in uint8_t variables and the zero points are subtracted with uint8_t
arithmetic (A1 -= z_wt; B1 -= z_in), so the offset-adjusted operands wrap
modulo 256 and the product is formed from the wrapped nonnegative values. -/
def dwAccRem (wt colB : Nat → Nat) (ch c zwt zin : Nat) (b : Int) (nk2 : Nat) : Int :=
  b + sumUpTo (fun k =>
    (((wt (k * ch + c) % 256 + 256 - zwt % 256) % 256) *
     ((colB (k * ch + c) % 256 + 256 - zin % 256) % 256) : Nat)) nk2

/-- C2 failing-input evaluation: one channel, one kernel position, weight
code 0 with z_wt = 1, input code 1 with z_in = 0, bias 0.  The remainder
loop's uint8 arithmetic wraps 0 - 1 to 255 and accumulates 255, while the
signed offset-subtract-then-multiply arithmetic of the 4-channel unrolled
pass yields (0 - 1) * (1 - 0) = -1. -/
theorem claim_C2_remainder_wraps :
    dwAccRem (fun _ => 0) (fun _ => 1) 1 0 1 0 0 1 = 255 ∧
    dwAccMain (fun _ => 0) (fun _ => 1) 1 0 1 0 0 1 = -1 := by
  refine ⟨by decide, by decide⟩

/-- Source: the 4-channel block loop of the depthwise driver's per-position
channel computation (lines 148-242), restricted to the sequence of u2 codes
it produces: each pass consumes four channels, casting each accumulator to
int16 and folding it against the thresholds at flat base ch_out_id << 2,
with ch_out_id incremented per channel. -/
def dwBlockLoop (accOf : Nat → Int) (thr : Nat → Int) : Nat → Nat → List Nat
  | 0, _ => []
  | rowCnt + 1, chId =>
      int16_to_u2 (toInt16 (accOf chId)) (fun k => thr ((chId <<< 2) + k)) ::
      int16_to_u2 (toInt16 (accOf (chId + 1))) (fun k => thr (((chId + 1) <<< 2) + k)) ::
      int16_to_u2 (toInt16 (accOf (chId + 2))) (fun k => thr (((chId + 2) <<< 2) + k)) ::
      int16_to_u2 (toInt16 (accOf (chId + 3))) (fun k => thr (((chId + 3) <<< 2) + k)) ::
      dwBlockLoop accOf thr rowCnt (chId + 4)

/-- Source: the 1-channel remainder loop of the same computation (lines
246-293), restricted to the sequence of u2 codes it produces, one channel
per pass, thresholds again at flat base ch_out_id << 2. -/
def dwRemLoop (accOf : Nat → Int) (thr : Nat → Int) : Nat → Nat → List Nat
  | 0, _ => []
  | rowCnt + 1, chId =>
      int16_to_u2 (toInt16 (accOf chId)) (fun k => thr ((chId <<< 2) + k)) ::
      dwRemLoop accOf thr rowCnt (chId + 1)

/-- The accumulator the depthwise channel loop feeds to the threshold fold
for channel c: channels below 4 * (ch_im_out >> 2) go through the unrolled
pass, the rest through the remainder loop. -/
def dwAccAt (wt colB : Nat → Nat) (bias : Nat → Int) (ch zwt zin nk2 c : Nat) : Int :=
  if c < 4 * (ch >>> 2) then dwAccMain wt colB ch c zwt zin (bias c) nk2
  else dwAccRem wt colB ch c zwt zin (bias c) nk2

/-- Source: the full per-output-position sequence of u2 codes of the
depthwise driver: ch_im_out >> 2 unrolled passes of four channels followed
by ch_im_out AND 3 remainder channels. -/
def dwPosCodes (wt colB : Nat → Nat) (bias : Nat → Int) (thr : Nat → Int)
    (ch zwt zin nk2 : Nat) : List Nat :=
  dwBlockLoop (fun c => dwAccMain wt colB ch c zwt zin (bias c) nk2) thr (ch >>> 2) 0 ++
    dwRemLoop (fun c => dwAccRem wt colB ch c zwt zin (bias c) nk2) thr (ch &&& 0x3) (4 * (ch >>> 2))

/-- Source: the per-row-pair sequence of u4 codes written to the first
output stream of arm_nn_mat_mult_kernel_reordered_u8_int16_u4_thr (lines
165-172): row i folds against thresholds at flat base i << 4, row i + 1 at
base (i + 1) << 4; the second stream uses the same bases with the second
vector's accumulators. -/
def matU4ThrCodes (accOf : Nat → Int) (thr : Nat → Int) : Nat → Nat → List Nat
  | 0, _ => []
  | pairs + 1, i =>
      int16_to_u4 (toInt16 (accOf i)) (fun k => thr ((i <<< 4) + k)) ::
      int16_to_u4 (toInt16 (accOf (i + 1))) (fun k => thr (((i + 1) <<< 4) + k)) ::
      matU4ThrCodes accOf thr pairs (i + 2)

lemma and_three_eq_mod (ch : Nat) : ch &&& 3 = ch % 4 := by
  have h := Nat.and_pow_two_sub_one_eq_mod ch 2
  norm_num at h
  exact h

lemma dwBlockLoop_length (accOf : Nat → Int) (thr : Nat → Int) :
    ∀ (n s : Nat), (dwBlockLoop accOf thr n s).length = 4 * n
  | 0, _ => rfl
  | n + 1, s => by
      simp [dwBlockLoop, dwBlockLoop_length accOf thr n (s + 4)]
      omega

lemma dwBlockLoop_get (accOf : Nat → Int) (thr : Nat → Int) :
    ∀ (n s c : Nat), c < 4 * n →
      (dwBlockLoop accOf thr n s)[c]? =
        some (int16_to_u2 (toInt16 (accOf (s + c))) (fun k => thr (4 * (s + c) + k)))
  | 0, _, _, h => by omega
  | n + 1, s, c, h => by
      have hs0 : s <<< 2 = 4 * (s + 0) := by omega
      have hs1 : (s + 1) <<< 2 = 4 * (s + 1) := by omega
      have hs2 : (s + 2) <<< 2 = 4 * (s + 2) := by omega
      have hs3 : (s + 3) <<< 2 = 4 * (s + 3) := by omega
      rcases c with _ | (_ | (_ | (_ | m)))
      · simp only [dwBlockLoop, List.getElem?_cons_zero, hs0]
        norm_num
      · simp only [dwBlockLoop, List.getElem?_cons_succ, List.getElem?_cons_zero, hs1]
      · simp only [dwBlockLoop, List.getElem?_cons_succ, List.getElem?_cons_zero, hs2]
      · simp only [dwBlockLoop, List.getElem?_cons_succ, List.getElem?_cons_zero, hs3]
      · have ih := dwBlockLoop_get accOf thr n (s + 4) m (by omega)
        simp only [dwBlockLoop, List.getElem?_cons_succ]
        rw [ih, show s + 4 + m = s + (m + 1 + 1 + 1 + 1) from by omega]

lemma dwRemLoop_get (accOf : Nat → Int) (thr : Nat → Int) :
    ∀ (n s c : Nat), c < n →
      (dwRemLoop accOf thr n s)[c]? =
        some (int16_to_u2 (toInt16 (accOf (s + c))) (fun k => thr (4 * (s + c) + k)))
  | 0, _, _, h => by omega
  | n + 1, s, c, h => by
      have hs0 : s <<< 2 = 4 * (s + 0) := by omega
      rcases c with _ | m
      · simp only [dwRemLoop, List.getElem?_cons_zero, hs0]
        norm_num
      · have ih := dwRemLoop_get accOf thr n (s + 1) m (by omega)
        simp only [dwRemLoop, List.getElem?_cons_succ]
        rw [ih, show s + 1 + m = s + (m + 1) from by omega]

lemma matU4ThrCodes_get (accOf : Nat → Int) (thr : Nat → Int) :
    ∀ (pairs s c : Nat), c < 2 * pairs →
      (matU4ThrCodes accOf thr pairs s)[c]? =
        some (int16_to_u4 (toInt16 (accOf (s + c))) (fun k => thr (16 * (s + c) + k)))
  | 0, _, _, h => by omega
  | pairs + 1, s, c, h => by
      have hs0 : s <<< 4 = 16 * (s + 0) := by omega
      have hs1 : (s + 1) <<< 4 = 16 * (s + 1) := by omega
      rcases c with _ | (_ | m)
      · simp only [matU4ThrCodes, List.getElem?_cons_zero, hs0]
        norm_num
      · simp only [matU4ThrCodes, List.getElem?_cons_succ, List.getElem?_cons_zero, hs1]
      · have ih := matU4ThrCodes_get accOf thr pairs (s + 2) m (by omega)
        simp only [matU4ThrCodes, List.getElem?_cons_succ]
        rw [ih, show s + 2 + m = s + (m + 1 + 1) from by omega]

/-- C4 amended: the threshold tables are flat arrays with a stride of
2^bits entries per channel, not 2^bits - 1: for every output channel c the
depthwise kernel folds channel c's accumulator against the three
breakpoints at flat indices 4c, 4c + 1, 4c + 2 of the thresholds array, and
the u4 matrix-multiply kernel folds row c's accumulator against the fifteen
breakpoints starting at flat index 16c. -/
theorem claim_C4_amended_threshold_stride :
    (∀ (wt colB : Nat → Nat) (bias : Nat → Int) (thr : Nat → Int) (ch zwt zin nk2 c : Nat),
        c < ch →
        (dwPosCodes wt colB bias thr ch zwt zin nk2)[c]? =
          some (int16_to_u2 (toInt16 (dwAccAt wt colB bias ch zwt zin nk2 c))
            (fun k => thr (4 * c + k)))) ∧
    (∀ (accOf : Nat → Int) (thr : Nat → Int) (pairs c : Nat), c < 2 * pairs →
        (matU4ThrCodes accOf thr pairs 0)[c]? =
          some (int16_to_u4 (toInt16 (accOf c)) (fun k => thr (16 * c + k)))) := by
  constructor
  · intro wt colB bias thr ch zwt zin nk2 c hc
    have hand := and_three_eq_mod ch
    unfold dwPosCodes dwAccAt
    rw [List.getElem?_append, dwBlockLoop_length]
    by_cases hlt : c < 4 * (ch >>> 2)
    · rw [if_pos hlt, if_pos hlt, dwBlockLoop_get _ _ _ _ _ hlt]
      norm_num
    · rw [if_neg hlt, if_neg hlt,
        dwRemLoop_get _ _ _ _ _ (by rw [hand]; omega)]
      rw [show 4 * (ch >>> 2) + (c - 4 * (ch >>> 2)) = c from by omega]
  · intro accOf thr pairs c hc
    have h := matU4ThrCodes_get accOf thr pairs 0 c hc
    rw [h]
    norm_num

/-- Witness for the amended C4 theorem at a concrete channel index. -/
theorem claim_C4_amended_threshold_stride_witness :
    (1 : Nat) < 2 ∧
    (dwPosCodes (fun _ => 0) (fun _ => 0) (fun _ => 0) (fun _ => 0) 2 0 0 1)[1]? =
      some (int16_to_u2 (toInt16 (dwAccAt (fun _ => 0) (fun _ => 0) (fun _ => 0) 2 0 0 1 1))
        (fun k => (fun _ => (0 : Int)) (4 * 1 + k))) :=
  ⟨by decide,
   claim_C4_amended_threshold_stride.1 (fun _ => 0) (fun _ => 0) (fun _ => 0)
     (fun _ => 0) 2 0 0 1 1 (by decide)⟩

def thrDemoC4 : Nat → Int := fun k => if k = 3 then 1 else 0

/-- C4 counterexample: with two output channels, all-zero accumulator data
and the threshold table that is 1 at flat index 3 and 0 elsewhere, the
depthwise kernel's channel-1 output code is 3 (it reads the all-zero
breakpoints at flat indices 4, 5, 6), while folding against the breakpoints
at flat index 1 * (2^2 - 1) = 3 as the claim states would give 2. -/
theorem claim_C4_counterexample :
    (dwPosCodes (fun _ => 0) (fun _ => 0) (fun _ => 0) thrDemoC4 2 0 0 1)[1]? ≠
      some (int16_to_u2 (toInt16 (dwAccAt (fun _ => 0) (fun _ => 0) (fun _ => 0) 2 0 0 1 1))
        (fun k => thrDemoC4 (3 * 1 + k))) ∧
    (dwPosCodes (fun _ => 0) (fun _ => 0) (fun _ => 0) thrDemoC4 2 0 0 1)[1]? = some 3 ∧
    int16_to_u2 (toInt16 (dwAccAt (fun _ => 0) (fun _ => 0) (fun _ => 0) 2 0 0 1 1))
      (fun k => thrDemoC4 (3 * 1 + k)) = 2 := by
  refine ⟨by decide, by decide, by decide⟩

/-- Source: the output store step of
arm_nn_mat_mult_kernel_reordered_u4_int16_u2 (lines 203-217), applied once
per row pair to each of the two output streams with that stream's two
requantized sums.  When i AND 2 is nonzero the two u2 codes are shifted to
bit positions 4 and 6 and OR-ed onto the current byte, and the stream
pointer advances; otherwise the codes are written to bit positions 0 and 2,
overwriting the byte, and the pointer stays.  Byte memory is modelled as a
Nat-valued function read modulo 256. -/
def u2StoreStep (out : Nat → Nat) (ptr : Nat) (i : Nat) (s s3 : Int) : (Nat → Nat) × Nat :=
  if i &&& 2 ≠ 0 then
    (upd out ptr ((((usatN 2 s <<< 4) &&& 0x30) ||| ((usatN 2 s3 <<< 6) &&& 0xC0)) |||
      (out ptr % 256)), ptr + 1)
  else
    (upd out ptr ((usatN 2 s &&& 0x03) ||| ((usatN 2 s3 <<< 2) &&& 0x0C)), ptr)

lemma upd_same (f : Nat → Nat) (i v : Nat) : upd f i v i = v := by simp [upd]

lemma and_two_eq (i : Nat) : i &&& 2 = 2 * ((i / 2) % 2) := by
  have h := Nat.and_two_pow i 1
  rw [Nat.testBit_to_div_mod] at h
  norm_num at h
  by_cases hc : i / 2 % 2 = 1
  · simp [hc] at h; omega
  · simp [hc] at h; omega

lemma usatN_two_lt_four (x : Int) : usatN 2 x < 4 := by
  unfold usatN; omega

lemma u2_byte_facts : ∀ (a b c d : Fin 4),
    ((a.val &&& 3) ||| ((b.val <<< 2) &&& 12)) % 4 = a.val ∧
    ((a.val &&& 3) ||| ((b.val <<< 2) &&& 12)) / 4 % 4 = b.val ∧
    ((a.val &&& 3) ||| ((b.val <<< 2) &&& 12)) < 16 ∧
    ((((c.val <<< 4) &&& 48) ||| ((d.val <<< 6) &&& 192)) |||
        (((a.val &&& 3) ||| ((b.val <<< 2) &&& 12)) % 256)) % 16 =
      ((a.val &&& 3) ||| ((b.val <<< 2) &&& 12)) % 16 ∧
    ((((c.val <<< 4) &&& 48) ||| ((d.val <<< 6) &&& 192)) |||
        (((a.val &&& 3) ||| ((b.val <<< 2) &&& 12)) % 256)) / 16 % 4 = c.val ∧
    ((((c.val <<< 4) &&& 48) ||| ((d.val <<< 6) &&& 192)) |||
        (((a.val &&& 3) ||| ((b.val <<< 2) &&& 12)) % 256)) / 64 = d.val := by
  decide

/-- C8: over one even/odd pair of row-pair iterations (i with i mod 4 = 0,
then i + 2), the store step first writes the two rows' codes to bit
positions 0-1 and 2-3 of a freshly overwritten byte (high nibble zero,
pointer unchanged), then OR-s the next row pair's codes into bit positions
4-5 and 6-7 of that same byte without disturbing its low nibble, and only
then advances the stream pointer by one byte; no other byte is touched.
The branch condition i AND 2 is exactly the parity of the row-pair index
i / 2. -/
theorem claim_C8_row_pair_packing (out : Nat → Nat) (ptr i : Nat) (se s3e so s3o : Int)
    (h : i % 4 = 0) :
    (i &&& 2 = 0 ∧ (i / 2) % 2 = 0 ∧ (i + 2) &&& 2 ≠ 0 ∧ ((i + 2) / 2) % 2 = 1) ∧
    (u2StoreStep out ptr i se s3e).2 = ptr ∧
    (u2StoreStep out ptr i se s3e).1 ptr % 4 = usatN 2 se ∧
    (u2StoreStep out ptr i se s3e).1 ptr / 4 % 4 = usatN 2 s3e ∧
    (u2StoreStep out ptr i se s3e).1 ptr < 16 ∧
    (u2StoreStep (u2StoreStep out ptr i se s3e).1 (u2StoreStep out ptr i se s3e).2
        (i + 2) so s3o).1 ptr % 16 = (u2StoreStep out ptr i se s3e).1 ptr % 16 ∧
    (u2StoreStep (u2StoreStep out ptr i se s3e).1 (u2StoreStep out ptr i se s3e).2
        (i + 2) so s3o).1 ptr / 16 % 4 = usatN 2 so ∧
    (u2StoreStep (u2StoreStep out ptr i se s3e).1 (u2StoreStep out ptr i se s3e).2
        (i + 2) so s3o).1 ptr / 64 = usatN 2 s3o ∧
    (u2StoreStep (u2StoreStep out ptr i se s3e).1 (u2StoreStep out ptr i se s3e).2
        (i + 2) so s3o).2 = ptr + 1 ∧
    (∀ j, j ≠ ptr →
      (u2StoreStep (u2StoreStep out ptr i se s3e).1 (u2StoreStep out ptr i se s3e).2
          (i + 2) so s3o).1 j = out j) := by
  have hA : i &&& 2 = 0 := by rw [and_two_eq]; omega
  have hB : (i + 2) &&& 2 = 2 := by rw [and_two_eq]; omega
  have hp1 : i / 2 % 2 = 0 := by omega
  have hp2 : (i + 2) / 2 % 2 = 1 := by omega
  obtain ⟨f1, f2, f3, f4, f5, f6⟩ := u2_byte_facts ⟨usatN 2 se, usatN_two_lt_four se⟩
    ⟨usatN 2 s3e, usatN_two_lt_four s3e⟩ ⟨usatN 2 so, usatN_two_lt_four so⟩
    ⟨usatN 2 s3o, usatN_two_lt_four s3o⟩
  refine ⟨⟨hA, hp1, by rw [hB]; omega, hp2⟩, ?_, ?_, ?_, ?_, ?_, ?_, ?_, ?_, ?_⟩ <;>
    simp only [u2StoreStep, hA, hB, ne_eq] <;> norm_num <;>
    first
      | (simp only [upd_same]
         first
           | exact f1
           | exact f2
           | exact f3
           | exact f4
           | exact f5
           | exact f6)
      | (intro j hj
         simp [upd, hj])

/-- Witness for the C8 packing theorem at a concrete row-pair iteration. -/
theorem claim_C8_row_pair_packing_witness :
    (0 : Nat) % 4 = 0 ∧ (u2StoreStep (fun _ => 7) 5 0 1 2).2 = 5 :=
  ⟨rfl, (claim_C8_row_pair_packing (fun _ => 7) 5 0 1 2 3 1 rfl).2.1⟩

/-- A 2-bit field of a byte: crumb b k is the k-th 2-bit code of byte b,
LSB first. -/
def crumb (b k : Nat) : Nat := (b >>> (2 * k)) % 4

/-- The source byte and crumb index feeding destination lane r (r < 16) of
one unrolled pass of arm_u2_to_int16_reordered: the per-lane reading of the
UXTB16/ROR shuffle (lines 79-118), which stores, in order, crumbs 0..3 of
bytes 0 and 2 interleaved, then crumbs 0..3 of bytes 1 and 3 interleaved.
The result is the byte offset within the 4-byte group and the crumb index. -/
def u2ReorderLane (r : Nat) : Nat × Nat :=
  if r < 8 then (2 * (r % 2), r / 2) else (1 + 2 * ((r - 8) % 2), (r - 8) / 2)

/-- Source: arm_u2_to_int16_reordered.c.  Destination lane memory is
modelled as an Int-valued function (int16 lanes); src is byte memory.  The
unrolled body handles blockSize >> 4 groups of 16 codes, subtracting the
offset from every lane when offset is nonzero (the offset-zero branch omits
the subtraction).  The tail loop then writes blockSize % 0x16 = blockSize
mod 22 further lanes - the source literal is hexadecimal 0x16, i.e. 22, not
16 - reading crumbs of the word at the 4 bytes where the unrolled loop
stopped (wrapping around that word after 16 crumbs, per the ROR by 2), and
performs no offset subtraction at all. -/
def arm_u2_to_int16_reordered (src : Nat → Nat) (dst : Nat → Int)
    (blockSize offset : Nat) : Nat → Int :=
  fun j =>
    if j < 16 * (blockSize >>> 4) then
      let bc := u2ReorderLane (j % 16)
      let code := crumb (src (4 * (j / 16) + bc.1) % 256) bc.2
      if offset ≠ 0 then (code : Int) - offset else (code : Int)
    else if j < 16 * (blockSize >>> 4) + blockSize % 0x16 then
      let jj := j - 16 * (blockSize >>> 4)
      (crumb (src (4 * (blockSize >>> 4) + jj / 4 % 4) % 256) (jj % 4) : Int)
    else dst j

/-- C5 failing-input evaluation: with blockSize = 4 and offset = 1 over an
all-zero source, lane 0 is produced by the tail loop and holds 0, not the
zero-point-adjusted value 0 - 1 = -1 the claim requires (the tail loop
subtracts no offset); and with blockSize = 16 and offset = 0 the tail loop
runs 16 % 0x16 = 16 further iterations, so lane 16 - which the claim says
must be beyond the 16 mod 16 = 0 processed tail lanes and hence untouched -
is overwritten (the prior destination value 99 is lost). -/
theorem claim_C5_tail_loop_divergence :
    arm_u2_to_int16_reordered (fun _ => 0) (fun _ => 99) 4 1 0 = 0 ∧
    arm_u2_to_int16_reordered (fun _ => 0) (fun _ => 99) 4 1 0 ≠ 0 - 1 ∧
    arm_u2_to_int16_reordered (fun _ => 0) (fun _ => 99) 16 0 16 = 0 ∧
    arm_u2_to_int16_reordered (fun _ => 0) (fun _ => 99) 16 0 16 ≠ 99 := by
  refine ⟨by decide, by decide, by decide, by decide⟩

/-- The status codes the depthwise driver can return. -/
inductive ArmStatus
  | ARM_MATH_SUCCESS
  | ARM_MATH_SIZE_MISMATCH
deriving DecidableEq

/-- The caller-visible outcome of the depthwise driver: the returned status
and the final contents of the three caller-owned buffers. -/
structure DwResult where
  status : ArmStatus
  imOut : Nat → Nat
  bufA : Nat → Nat
  bufB : Nat → Nat

/-- Source: the im2col staging of one output position (lines 126-140 of the
depthwise driver): the value of colBuffer cell j after staging position
(yOut, xOut), laid out kernel-position-major with ch bytes per kernel
position; coordinates outside the input extent stage zero. -/
def im2colPos (imIn : Nat → Nat) (dimImIn ch stride topPad leftPad dimKernel yOut xOut : Nat) :
    Nat → Nat :=
  fun j =>
    let p := j / ch
    let c := j % ch
    let kerY : Int := (yOut : Int) * stride - topPad + p / dimKernel
    let kerX : Int := (xOut : Int) * stride - leftPad + p % dimKernel
    if kerY < 0 ∨ (dimImIn : Int) ≤ kerY ∨ kerX < 0 ∨ (dimImIn : Int) ≤ kerX then 0
    else imIn ((kerY.toNat * dimImIn + kerX.toNat) * ch + c) % 256

/-- Source: the output byte stores of the 4-channel block loop (line 238):
each pass packs its four u2 codes LSB-first into one byte and advances the
output pointer. -/
def dwStoreBlocks (out : Nat → Nat) (p : Nat) : List Nat → (Nat → Nat) × Nat
  | q1 :: q2 :: q3 :: q4 :: rest =>
      dwStoreBlocks
        (upd out p ((min 3 q1) ||| ((min 3 q2) <<< 2) ||| ((min 3 q3) <<< 4) |||
          ((min 3 q4) <<< 6))) (p + 1) rest
  | _ => (out, p)

/-- Source: the remainder channels' switch on row_per_byte_out (lines
272-290): the first remainder code overwrites the byte at the output
pointer, later ones are OR-ed in at bit positions 2, 4 and 6; only the
(never reached, since at most three channels remain) fourth case advances
the pointer, wrapping row_per_byte_out. -/
def dwStoreRem (out : Nat → Nat) (p : Nat) (rpb : Int) : List Nat → (Nat → Nat) × Nat × Int
  | [] => (out, p, rpb)
  | q :: rest =>
      if rpb = 4 then dwStoreRem (upd out p (min 3 q)) p 3 rest
      else if rpb = 3 then dwStoreRem (upd out p ((out p % 256) ||| ((min 3 q) <<< 2))) p 2 rest
      else if rpb = 2 then dwStoreRem (upd out p ((out p % 256) ||| ((min 3 q) <<< 4))) p 1 rest
      else if rpb = 1 then
        dwStoreRem (upd out p ((out p % 256) ||| ((min 3 q) <<< 6))) (p + 1) (rpb - 4) rest
      else dwStoreRem out p rpb rest

/-- One output position's stores: the block-loop bytes followed by the
remainder switch starting from row_per_byte_out = 4. -/
def dwWritePos (out : Nat → Nat) (cursor : Nat) (blockCodes remCodes : List Nat) :
    (Nat → Nat) × Nat :=
  let r1 := dwStoreBlocks out cursor blockCodes
  let r2 := dwStoreRem r1.1 r1.2 4 remCodes
  (r2.1, r2.2.1)

/-- Source: the spatial double loop of the depthwise driver (lines
122-298), iterated over the flattened output position index: each position
stages its patch into bufferA, computes the per-channel codes and writes
them at the output cursor.  Returns the final output memory and the final
bufferA contents. -/
def dwRunLoop (imIn wt : Nat → Nat) (bias : Nat → Int) (thr : Nat → Int)
    (dimImIn ch dimKernel leftPad topPad stride dimImOut zIn zWt : Nat) :
    Nat → Nat → (Nat → Nat) → (Nat → Nat) → Nat → ((Nat → Nat) × (Nat → Nat))
  | 0, _, out, bufA, _ => (out, bufA)
  | fuel + 1, t, out, bufA, cursor =>
      let colB := im2colPos imIn dimImIn ch stride topPad leftPad dimKernel
        (t / dimImOut) (t % dimImOut)
      let bufA' := fun j => if j < dimKernel * dimKernel * ch then colB j else bufA j
      let blockCodes := dwBlockLoop
        (fun c => dwAccMain wt colB ch c zWt zIn (bias c) (dimKernel * dimKernel)) thr
        (ch >>> 2) 0
      let remCodes := dwRemLoop
        (fun c => dwAccRem wt colB ch c zWt zIn (bias c) (dimKernel * dimKernel)) thr
        (ch &&& 0x3) (4 * (ch >>> 2))
      let w := dwWritePos out cursor blockCodes remCodes
      dwRunLoop imIn wt bias thr dimImIn ch dimKernel leftPad topPad stride dimImOut zIn zWt
        fuel (t + 1) w.1 bufA' w.2

/-- Source: arm_depthwise_separable_conv_HWC_u8_u2_u8_thr.c.  The size
check ch_im_in = ch_im_out happens before the spatial loops; on mismatch
the function returns ARM_MATH_SIZE_MISMATCH without touching Im_out,
bufferA or bufferB, otherwise it runs all dim_im_out^2 output positions and
returns ARM_MATH_SUCCESS.  bufferB is never written by the function. -/
def arm_depthwise_separable_conv_HWC_u8_u2_u8_thr
    (imIn : Nat → Nat) (dimImIn chImIn : Nat) (wt : Nat → Nat) (chImOut dimKernel : Nat)
    (leftPad rightPad topPad bottomPad stride : Nat) (bias : Nat → Int)
    (imOut : Nat → Nat) (dimImOut zIn zWt : Nat) (thr : Nat → Int)
    (bufferA bufferB : Nat → Nat) : DwResult :=
  if chImIn ≠ chImOut then
    { status := .ARM_MATH_SIZE_MISMATCH, imOut := imOut, bufA := bufferA, bufB := bufferB }
  else
    let r := dwRunLoop imIn wt bias thr dimImIn chImIn dimKernel leftPad topPad stride dimImOut
      zIn zWt (dimImOut * dimImOut) 0 imOut bufferA 0
    { status := .ARM_MATH_SUCCESS, imOut := r.1, bufA := r.2, bufB := bufferB }

/-- C6: the depthwise driver returns ARM_MATH_SIZE_MISMATCH exactly when
the input and output channel counts differ, and ARM_MATH_SUCCESS exactly
otherwise; no other input condition affects the status. -/
theorem claim_C6_status_iff_channel_mismatch
    (imIn : Nat → Nat) (dimImIn chImIn : Nat) (wt : Nat → Nat) (chImOut dimKernel : Nat)
    (leftPad rightPad topPad bottomPad stride : Nat) (bias : Nat → Int)
    (imOut : Nat → Nat) (dimImOut zIn zWt : Nat) (thr : Nat → Int)
    (bufferA bufferB : Nat → Nat) :
    ((arm_depthwise_separable_conv_HWC_u8_u2_u8_thr imIn dimImIn chImIn wt chImOut dimKernel
        leftPad rightPad topPad bottomPad stride bias imOut dimImOut zIn zWt thr
        bufferA bufferB).status = ArmStatus.ARM_MATH_SIZE_MISMATCH ↔ chImIn ≠ chImOut) ∧
    ((arm_depthwise_separable_conv_HWC_u8_u2_u8_thr imIn dimImIn chImIn wt chImOut dimKernel
        leftPad rightPad topPad bottomPad stride bias imOut dimImOut zIn zWt thr
        bufferA bufferB).status = ArmStatus.ARM_MATH_SUCCESS ↔ chImIn = chImOut) := by
  by_cases h : chImIn = chImOut <;>
    simp [arm_depthwise_separable_conv_HWC_u8_u2_u8_thr, h]

/-- C10: whenever the depthwise driver reports the size mismatch, it does
so before the first output-position iteration, so the returned Im_out,
bufferA and bufferB contents are exactly the caller's originals. -/
theorem claim_C10_no_writes_on_mismatch
    (imIn : Nat → Nat) (dimImIn chImIn : Nat) (wt : Nat → Nat) (chImOut dimKernel : Nat)
    (leftPad rightPad topPad bottomPad stride : Nat) (bias : Nat → Int)
    (imOut : Nat → Nat) (dimImOut zIn zWt : Nat) (thr : Nat → Int)
    (bufferA bufferB : Nat → Nat) (h : chImIn ≠ chImOut) :
    (arm_depthwise_separable_conv_HWC_u8_u2_u8_thr imIn dimImIn chImIn wt chImOut dimKernel
        leftPad rightPad topPad bottomPad stride bias imOut dimImOut zIn zWt thr
        bufferA bufferB).status = ArmStatus.ARM_MATH_SIZE_MISMATCH ∧
    (arm_depthwise_separable_conv_HWC_u8_u2_u8_thr imIn dimImIn chImIn wt chImOut dimKernel
        leftPad rightPad topPad bottomPad stride bias imOut dimImOut zIn zWt thr
        bufferA bufferB).imOut = imOut ∧
    (arm_depthwise_separable_conv_HWC_u8_u2_u8_thr imIn dimImIn chImIn wt chImOut dimKernel
        leftPad rightPad topPad bottomPad stride bias imOut dimImOut zIn zWt thr
        bufferA bufferB).bufA = bufferA ∧
    (arm_depthwise_separable_conv_HWC_u8_u2_u8_thr imIn dimImIn chImIn wt chImOut dimKernel
        leftPad rightPad topPad bottomPad stride bias imOut dimImOut zIn zWt thr
        bufferA bufferB).bufB = bufferB := by
  simp [arm_depthwise_separable_conv_HWC_u8_u2_u8_thr, h]

/-- Witness for the C10 theorem at a concrete mismatching channel pair. -/
theorem claim_C10_no_writes_on_mismatch_witness :
    (1 : Nat) ≠ 2 ∧
    ((arm_depthwise_separable_conv_HWC_u8_u2_u8_thr (fun _ => 0) 1 1 (fun _ => 0) 2 1
        0 0 0 0 1 (fun _ => 0) (fun _ => 5) 1 0 0 (fun _ => 0)
        (fun _ => 6) (fun _ => 7)).status = ArmStatus.ARM_MATH_SIZE_MISMATCH ∧
     (arm_depthwise_separable_conv_HWC_u8_u2_u8_thr (fun _ => 0) 1 1 (fun _ => 0) 2 1
        0 0 0 0 1 (fun _ => 0) (fun _ => 5) 1 0 0 (fun _ => 0)
        (fun _ => 6) (fun _ => 7)).imOut = (fun _ => 5) ∧
     (arm_depthwise_separable_conv_HWC_u8_u2_u8_thr (fun _ => 0) 1 1 (fun _ => 0) 2 1
        0 0 0 0 1 (fun _ => 0) (fun _ => 5) 1 0 0 (fun _ => 0)
        (fun _ => 6) (fun _ => 7)).bufA = (fun _ => 6) ∧
     (arm_depthwise_separable_conv_HWC_u8_u2_u8_thr (fun _ => 0) 1 1 (fun _ => 0) 2 1
        0 0 0 0 1 (fun _ => 0) (fun _ => 5) 1 0 0 (fun _ => 0)
        (fun _ => 6) (fun _ => 7)).bufB = (fun _ => 7)) :=
  ⟨by decide,
   claim_C10_no_writes_on_mismatch (fun _ => 0) 1 1 (fun _ => 0) 2 1 0 0 0 0 1 (fun _ => 0)
     (fun _ => 5) 1 0 0 (fun _ => 0) (fun _ => 6) (fun _ => 7) (by decide)⟩

end CMSISNNIntq
